import Mathlib

/-!
Verification development for the pyHMSSQL geo-routing sidecar
(src/rustcore/geo_sidecar). The Rust code is shallowly embedded:

* f64 score arithmetic (load scores, latencies, distances) is modelled
  over ℚ; the haversine formula itself, which uses transcendental
  functions, is modelled separately over ℝ.
* The concurrent maps (DashMap) are modelled as association lists that
  carry the map's iteration order explicitly, since the selection
  tie-break depends on it.
* The geo resolver is modelled as a record of a resolution function and
  a distance function (the source threads a `&GeoResolver` the same
  way); the routing theorems hold for every such resolver.
* Wall-clock quantities (elapsed decision time, timestamps) are modelled
  as 0 respectively passed in as parameters; no claim depends on them.
-/

/-- Location record from geo.rs (GeoLocation), with ℚ coordinates. -/
structure GeoLocation where
  country : String
  region : String
  city : String
  latitude : ℚ
  longitude : ℚ
  timezone : String
deriving DecidableEq, Repr

/-- Default "Unknown" location from geo.rs `impl Default for GeoLocation`. -/
def GeoLocation.default : GeoLocation :=
  { country := "Unknown", region := "Unknown", city := "Unknown",
    latitude := 0, longitude := 0, timezone := "UTC" }

/-- Replica record from routing.rs (ReplicaInfo). -/
structure ReplicaInfo where
  node_id : String
  host : String
  port : Nat
  is_leader : Bool
  healthy : Bool
  zone : String
  geo_location : GeoLocation
  load_score : ℚ
  latency_ms : ℚ
deriving DecidableEq, Repr

/-- Routing request from routing.rs (client_ip kept as the raw string). -/
structure RoutingRequest where
  client_ip : String
  query_type : String
  timestamp : Nat
deriving DecidableEq, Repr

/-- Routing response from routing.rs. -/
structure RoutingResponse where
  node_id : String
  host : String
  port : Nat
  distance_km : ℚ
  routing_strategy : String
  response_time_micros : Nat
deriving DecidableEq, Repr

/-- Geo resolver capability as consumed by routing.rs: `resolve` is total
because geo.rs absorbs every lookup failure into the default location,
and `calculate_distance` abstracts the f64 haversine computation. -/
structure GeoResolver where
  resolve : String → GeoLocation
  calculate_distance : GeoLocation → GeoLocation → ℚ

/-- Routing engine state from routing.rs: the two DashMaps, as association
lists recording their iteration order. -/
structure RoutingEngine where
  replicas : List (String × ReplicaInfo)
  zone_replicas : List (String × List String)

/-- RoutingEngine::new. -/
def RoutingEngine.new : RoutingEngine := { replicas := [], zone_replicas := [] }

/-- DashMap::insert on the association-list model: replace the entry of an
existing key in place, else append. -/
def mapInsert {α : Type} (k : String) (v : α) : List (String × α) → List (String × α)
  | [] => [(k, v)]
  | (k', v') :: rest =>
      if k' = k then (k, v) :: rest else (k', v') :: mapInsert k v rest

/-- DashMap::get on the association-list model. -/
def mapLookup {α : Type} (m : List (String × α)) (k : String) : Option α :=
  (m.find? (fun p => p.1 == k)).map Prod.snd

/-- zone_replicas.entry(zone).or_insert_with(Vec::new).push(node_id) from
RoutingEngine::update_replicas. -/
def zonePush (zone node_id : String) : List (String × List String) → List (String × List String)
  | [] => [(zone, [node_id])]
  | (z, l) :: rest =>
      if z = zone then (z, l ++ [node_id]) :: rest else (z, l) :: zonePush zone node_id rest

/-- One iteration of the update loop in RoutingEngine::update_replicas:
insert into the primary map and push onto the zone bucket. -/
def updateStep (maps : List (String × ReplicaInfo) × List (String × List String))
    (replica : ReplicaInfo) :
    List (String × ReplicaInfo) × List (String × List String) :=
  (mapInsert replica.node_id replica maps.1, zonePush replica.zone replica.node_id maps.2)

/-- RoutingEngine::update_replicas: clear both maps, then insert every
replica of the input list in order. The source returns Ok(()) on every
path (the logging call cannot fail). -/
def RoutingEngine.update_replicas (_engine : RoutingEngine) (replicas : List ReplicaInfo) :
    Except String RoutingEngine :=
  let maps := replicas.foldl updateStep ([], [])
  .ok { replicas := maps.1, zone_replicas := maps.2 }

/-- One comparison step of Rust's Iterator::min_by: keep the accumulator
unless the next element scores strictly lower, so among equally minimal
elements the earliest is kept. The ℚ score stands for the f64 score
compared through partial_cmp with an Equal fallback. -/
def minStep {α : Type} (score : α → ℚ) (acc y : α) : α :=
  if score y < score acc then y else acc

/-- Rust Iterator::min_by on a list. -/
def min_by {α : Type} (score : α → ℚ) : List α → Option α
  | [] => none
  | x :: xs => some (xs.foldl (minStep score) x)

/-- Write score from RoutingEngine::select_best_leader:
distance + load_score * 100. -/
def leaderScore (resolver : GeoResolver) (client : GeoLocation) (r : ReplicaInfo) : ℚ :=
  resolver.calculate_distance client r.geo_location + r.load_score * 100

/-- Read score from RoutingEngine::select_best_replica:
distance + load_score * 100 + latency_ms + leader bonus of -50. -/
def replicaScore (resolver : GeoResolver) (client : GeoLocation) (r : ReplicaInfo) : ℚ :=
  resolver.calculate_distance client r.geo_location + r.load_score * 100 + r.latency_ms +
    (if r.is_leader then (-50 : ℚ) else 0)

/-- RoutingEngine::select_best_leader. -/
def select_best_leader (resolver : GeoResolver) (candidates : List ReplicaInfo)
    (client_location : GeoLocation) : Except String ReplicaInfo :=
  let leaders := candidates.filter (fun r => r.is_leader)
  if leaders.isEmpty then .error "No healthy leaders available"
  else
    match min_by (leaderScore resolver client_location) leaders with
    | some r => .ok r
    | none => .error "Failed to select leader"

/-- RoutingEngine::select_best_replica. -/
def select_best_replica (resolver : GeoResolver) (candidates : List ReplicaInfo)
    (client_location : GeoLocation) : Except String ReplicaInfo :=
  match min_by (replicaScore resolver client_location) candidates with
  | some r => .ok r
  | none => .error "Failed to select replica"

/-- Healthy-replica collection from RoutingEngine::route_request: iterate
the primary map and keep the healthy values. -/
def healthyOf (engine : RoutingEngine) : List ReplicaInfo :=
  (engine.replicas.map Prod.snd).filter (fun r => r.healthy)

/-- Response assembly at the end of RoutingEngine::route_request
(elapsed decision time modelled as 0). -/
def mkRouteResponse (resolver : GeoResolver) (client : GeoLocation) (r : ReplicaInfo) :
    RoutingResponse :=
  { node_id := r.node_id, host := r.host, port := r.port,
    distance_km := resolver.calculate_distance client r.geo_location,
    routing_strategy := "closest_healthy", response_time_micros := 0 }

/-- RoutingEngine::route_request. -/
def RoutingEngine.route_request (engine : RoutingEngine) (request : RoutingRequest)
    (geo_resolver : GeoResolver) : Except String RoutingResponse :=
  let client_location := geo_resolver.resolve request.client_ip
  let healthy_replicas := healthyOf engine
  if healthy_replicas.isEmpty then .error "No healthy replicas available"
  else do
    let selected ←
      if request.query_type = "write" then
        select_best_leader geo_resolver healthy_replicas client_location
      else
        select_best_replica geo_resolver healthy_replicas client_location
    .ok (mkRouteResponse geo_resolver client_location selected)

/-- Operations a client can drive the engine through, for the table
invariant: a table replacement or a (read-only) routing query. -/
inductive EngineOp where
  | update (replicas : List ReplicaInfo)
  | route (request : RoutingRequest) (resolver : GeoResolver)

/-- Effect of one operation on the engine state: route_request takes
`&self` in the source and never mutates; update_replicas replaces the
state when it returns Ok (it always does). -/
def applyOp (engine : RoutingEngine) : EngineOp → RoutingEngine
  | .update rs =>
      match engine.update_replicas rs with
      | .ok engine' => engine'
      | .error _ => engine
  | .route _ _ => engine

/-- Vec held under a zone key of a zone_replicas map, empty when the
zone has no entry. -/
def bucketOf (zm : List (String × List String)) (zone : String) : List String :=
  (mapLookup zm zone).getD []

/-- Zone bucket of a zone in the engine's zone index. -/
def zoneBucket (engine : RoutingEngine) (zone : String) : List String :=
  bucketOf engine.zone_replicas zone

/-- The spec's RoutingTable invariant (§3): every node_id in a zone
bucket has an entry in the primary map, and every node_id in the primary
map sits in some zone bucket. -/
def zoneConsistent (engine : RoutingEngine) : Prop :=
  (∀ zone node_id, node_id ∈ zoneBucket engine zone →
      (mapLookup engine.replicas node_id).isSome) ∧
  (∀ node_id, (mapLookup engine.replicas node_id).isSome →
      ∃ zone, node_id ∈ zoneBucket engine zone)

/-- u64::MAX, the sentinel initial value of min_latency_micros. -/
def U64_MAX : Nat := 2 ^ 64 - 1

/-- Metrics state from metrics.rs (MetricsCollector): the six AtomicU64
cells, as Nats that wrap at 2^64 on addition. -/
structure MetricsCollector where
  total_requests : Nat
  successful_requests : Nat
  failed_requests : Nat
  total_latency_micros : Nat
  min_latency_micros : Nat
  max_latency_micros : Nat
deriving DecidableEq, Repr

/-- MetricsCollector::new. -/
def MetricsCollector.new : MetricsCollector :=
  { total_requests := 0, successful_requests := 0, failed_requests := 0,
    total_latency_micros := 0, min_latency_micros := U64_MAX, max_latency_micros := 0 }

/-- MetricsCollector::record_request: fetch_add wraps at 2^64; the
min/max compare-exchange retry loops amount, for one recorder, to a
conditional update guarded by a strict comparison. -/
def MetricsCollector.record_request (m : MetricsCollector) (latency_micros : Nat)
    (success : Bool) : MetricsCollector :=
  { total_requests := (m.total_requests + 1) % 2 ^ 64,
    successful_requests :=
      if success then (m.successful_requests + 1) % 2 ^ 64 else m.successful_requests,
    failed_requests :=
      if success then m.failed_requests else (m.failed_requests + 1) % 2 ^ 64,
    total_latency_micros := (m.total_latency_micros + latency_micros) % 2 ^ 64,
    min_latency_micros :=
      if latency_micros < m.min_latency_micros then latency_micros else m.min_latency_micros,
    max_latency_micros :=
      if latency_micros > m.max_latency_micros then latency_micros else m.max_latency_micros }

/-- Snapshot record from metrics.rs (MetricsSnapshot); the f64 average is
modelled over ℚ. -/
structure MetricsSnapshot where
  total_requests : Nat
  successful_requests : Nat
  failed_requests : Nat
  avg_latency_micros : ℚ
  min_latency_micros : Nat
  max_latency_micros : Nat
deriving DecidableEq, Repr

/-- MetricsCollector::get_snapshot. -/
def MetricsCollector.get_snapshot (m : MetricsCollector) : MetricsSnapshot :=
  { total_requests := m.total_requests,
    successful_requests := m.successful_requests,
    failed_requests := m.failed_requests,
    avg_latency_micros :=
      if m.total_requests > 0 then
        (m.total_latency_micros : ℚ) / (m.total_requests : ℚ)
      else 0,
    min_latency_micros :=
      if m.min_latency_micros = U64_MAX then 0 else m.min_latency_micros,
    max_latency_micros := m.max_latency_micros }

/-- Folding a whole call sequence of record_request over a collector. -/
def recordAll (m : MetricsCollector) (calls : List (Nat × Bool)) : MetricsCollector :=
  calls.foldl (fun acc c => acc.record_request c.1 c.2) m

/-- Structured payload values, standing for the serde_json values that
flow through main.rs. -/
inductive Json where
  | str (s : String)
  | bool (b : Bool)
  | num (q : ℚ)
  | obj (fields : List (String × Json))
  | null

/-- Request payload variants from main.rs (SidecarRequestType). -/
inductive SidecarRequestType where
  | Route (client_ip : String) (query_type : String)
  | UpdateRoutingTable (replicas : List ReplicaInfo)
  | Ping
  | GetMetrics
deriving DecidableEq, Repr

/-- Framed request from main.rs (SidecarRequest). -/
structure SidecarRequest where
  inner : SidecarRequestType
  timestamp : Nat
deriving DecidableEq, Repr

/-- Response envelope from main.rs (SidecarResponse); the wall-clock
timestamp is passed in by the caller. -/
structure SidecarResponse where
  success : Bool
  data : Option Json
  error : Option String
  timestamp : Nat

/-- SidecarResponse::success. -/
def SidecarResponse.mkSuccess (data : Json) (now : Nat) : SidecarResponse :=
  { success := true, data := some data, error := none, timestamp := now }

/-- SidecarResponse::error. -/
def SidecarResponse.mkError (msg : String) (now : Nat) : SidecarResponse :=
  { success := false, data := none, error := some msg, timestamp := now }

/-- Encoding of a RoutingResponse as response data (serde serialization
of the struct fields). -/
def encodeRoutingResponse (r : RoutingResponse) : Json :=
  .obj [("node_id", .str r.node_id), ("host", .str r.host), ("port", .num (r.port : ℚ)),
        ("distance_km", .num r.distance_km), ("routing_strategy", .str r.routing_strategy),
        ("response_time_micros", .num (r.response_time_micros : ℚ))]

/-- Modelled from the spec: the encoding of the Metrics Collector's
snapshot that a `metrics` request is specified to return as response
data; main.rs does not contain such an encoding. -/
def encodeSnapshot (s : MetricsSnapshot) : Json :=
  .obj [("total_requests", .num (s.total_requests : ℚ)),
        ("successful_requests", .num (s.successful_requests : ℚ)),
        ("failed_requests", .num (s.failed_requests : ℚ)),
        ("avg_latency_micros", .num s.avg_latency_micros),
        ("min_latency_micros", .num (s.min_latency_micros : ℚ)),
        ("max_latency_micros", .num (s.max_latency_micros : ℚ))]

/-- process_request from main.rs, after JSON decoding: dispatch on the
payload variant. Errors escaping through `?` are converted into an error
response by handle_connection's match; that conversion is inlined here.
The result pairs the response with the possibly updated engine. -/
def process_request (request : SidecarRequest) (geo_resolver : GeoResolver)
    (engine : RoutingEngine) (now : Nat) : SidecarResponse × RoutingEngine :=
  match request.inner with
  | .Route client_ip query_type =>
      match engine.route_request
          { client_ip := client_ip, query_type := query_type,
            timestamp := request.timestamp } geo_resolver with
      | .ok r => (SidecarResponse.mkSuccess (encodeRoutingResponse r) now, engine)
      | .error e => (SidecarResponse.mkError e now, engine)
  | .UpdateRoutingTable replicas =>
      match engine.update_replicas replicas with
      | .ok engine' =>
          (SidecarResponse.mkSuccess (.obj [("updated", .bool true)]) now, engine')
      | .error e => (SidecarResponse.mkError e now, engine)
  | .Ping => (SidecarResponse.mkSuccess (.obj [("pong", .bool true)]) now, engine)
  | .GetMetrics =>
      (SidecarResponse.mkSuccess (.obj [("metrics", .str "todo")]) now, engine)

/-- The 1 MiB frame-size ceiling from handle_connection in main.rs. -/
def MAX_REQUEST_SIZE : Nat := 1024 * 1024

/-- u32::from_be_bytes on the four length-prefix bytes. -/
def u32_from_be_bytes (b0 b1 b2 b3 : Nat) : Nat :=
  b0 * 2 ^ 24 + b1 * 2 ^ 16 + b2 * 2 ^ 8 + b3

/-- Outcome of one pass of the connection loop's framing phase. -/
inductive FrameStep where
  | frame (request_data : List Nat) (rest : List Nat)
  | fail (msg : String)
deriving DecidableEq, Repr

/-- Framing phase of one iteration of handle_connection's loop: read the
4-byte big-endian length; abort the connection if it exceeds the
ceiling; otherwise read exactly that many body bytes (a short stream is
a read error, also fatal to the connection). -/
def read_frame (stream : List Nat) : FrameStep :=
  match stream with
  | b0 :: b1 :: b2 :: b3 :: rest =>
      let length := u32_from_be_bytes b0 b1 b2 b3
      if length > MAX_REQUEST_SIZE then
        .fail ("Request too large: " ++ toString length ++ " bytes")
      else if rest.length < length then .fail "connection closed mid-frame"
      else .frame (rest.take length) (rest.drop length)
  | _ => .fail "connection closed"

/-- Earth radius constant from geo.rs. -/
def EARTH_RADIUS_KM : ℝ := 6371

/-- f64::to_radians. -/
noncomputable def to_radians (x : ℝ) : ℝ := x * Real.pi / 180

/-- f64::atan2 (the standard two-argument arctangent), needed by the
haversine formula; over ℝ instead of f64. -/
noncomputable def atan2 (y x : ℝ) : ℝ :=
  if 0 < x then Real.arctan (y / x)
  else if x < 0 ∧ 0 ≤ y then Real.arctan (y / x) + Real.pi
  else if x < 0 ∧ y < 0 then Real.arctan (y / x) - Real.pi
  else if x = 0 ∧ 0 < y then Real.pi / 2
  else if x = 0 ∧ y < 0 then -(Real.pi / 2)
  else 0

/-- haversine_distance from geo.rs, with the f64 arithmetic carried out
over ℝ. -/
noncomputable def haversine_distance (lat1 lon1 lat2 lon2 : ℝ) : ℝ :=
  let lat1_rad := to_radians lat1
  let lat2_rad := to_radians lat2
  let delta_lat := to_radians (lat2 - lat1)
  let delta_lon := to_radians (lon2 - lon1)
  let a := Real.sin (delta_lat / 2) ^ 2 +
    Real.cos lat1_rad * Real.cos lat2_rad * Real.sin (delta_lon / 2) ^ 2
  let c := 2 * atan2 (Real.sqrt a) (Real.sqrt (1 - a))
  EARTH_RADIUS_KM * c

/-- GeoLocation with its coordinates as reals, the model under which the
haversine computation itself is analysed. -/
structure GeoLocationR where
  country : String
  region : String
  city : String
  latitude : ℝ
  longitude : ℝ
  timezone : String

/-- GeoResolver::calculate_distance from geo.rs, over the real-coordinate
location model. -/
noncomputable def calculate_distance (loc1 loc2 : GeoLocationR) : ℝ :=
  haversine_distance loc1.latitude loc1.longitude loc2.latitude loc2.longitude

/-- Latencies of a call sequence. -/
def latencies (calls : List (Nat × Bool)) : List Nat := calls.map Prod.fst

/-- Smallest latency of a call sequence, 0 when there are no calls. -/
def smallestLatency (calls : List (Nat × Bool)) : Nat :=
  match latencies calls with
  | [] => 0
  | x :: xs => xs.foldl Nat.min x

/-- Largest latency of a call sequence (0 when there are no calls). -/
def largestLatency (calls : List (Nat × Bool)) : Nat :=
  (latencies calls).foldl Nat.max 0

/-- Cumulative latency of a call sequence. -/
def latencySum (calls : List (Nat × Bool)) : Nat := (latencies calls).sum

/-- Number of calls recorded with success == true. -/
def successCount (calls : List (Nat × Bool)) : Nat :=
  (calls.filter (fun c => c.2)).length

/-- Number of calls recorded with success == false. -/
def failureCount (calls : List (Nat × Bool)) : Nat :=
  (calls.filter (fun c => !c.2)).length

/-- Concrete resolver for the closed test theorems: geolocation disabled
(every lookup yields the default location) and a constant distance. -/
def resolver0 : GeoResolver :=
  { resolve := fun _ => GeoLocation.default, calculate_distance := fun _ _ => 0 }

/-- Concrete read request for the closed test theorems. -/
def readReq : RoutingRequest := { client_ip := "10.0.0.1", query_type := "read", timestamp := 0 }

/-- Concrete write request for the closed test theorems. -/
def writeReq : RoutingRequest := { client_ip := "10.0.0.1", query_type := "write", timestamp := 0 }

/-- A healthy leader replica. -/
def leaderReplica : ReplicaInfo :=
  { node_id := "L", host := "h1", port := 5000, is_leader := true, healthy := true,
    zone := "z", geo_location := GeoLocation.default, load_score := 1, latency_ms := 2 }

/-- A healthy follower replica. -/
def followerReplica : ReplicaInfo :=
  { node_id := "F", host := "h2", port := 5001, is_leader := false, healthy := true,
    zone := "z", geo_location := GeoLocation.default, load_score := 0, latency_ms := 0 }

/-- Healthy non-leader replica named "A"; scores identically to nodeB. -/
def nodeA : ReplicaInfo :=
  { node_id := "A", host := "hA", port := 6000, is_leader := false, healthy := true,
    zone := "z", geo_location := GeoLocation.default, load_score := 0, latency_ms := 0 }

/-- Healthy non-leader replica named "B"; scores identically to nodeA. -/
def nodeB : ReplicaInfo :=
  { node_id := "B", host := "hB", port := 6001, is_leader := false, healthy := true,
    zone := "z", geo_location := GeoLocation.default, load_score := 0, latency_ms := 0 }

/-- Engine whose map iterates nodeA before nodeB. -/
def engineAB : RoutingEngine :=
  { replicas := [("A", nodeA), ("B", nodeB)], zone_replicas := [("z", ["A", "B"])] }

/-- The same table as engineAB, iterated in the opposite order. -/
def engineBA : RoutingEngine :=
  { replicas := [("B", nodeB), ("A", nodeA)], zone_replicas := [("z", ["B", "A"])] }

/-- Engine holding one healthy leader and one healthy follower. -/
def leaderEngine : RoutingEngine :=
  { replicas := [("L", leaderReplica), ("F", followerReplica)],
    zone_replicas := [("z", ["L", "F"])] }

/-- Engine holding a single healthy follower and no leader. -/
def followerEngine : RoutingEngine :=
  { replicas := [("F", followerReplica)], zone_replicas := [("z", ["F"])] }

/-! ### Properties of the min_by selection -/

theorem foldl_minStep_mem {α : Type} (score : α → ℚ) (xs : List α) (acc : α) :
    xs.foldl (minStep score) acc ∈ acc :: xs := by
  induction xs generalizing acc with
  | nil => simp
  | cons y ys ih =>
    have h := ih (minStep score acc y)
    rcases List.mem_cons.mp h with h | h
    · rw [List.foldl_cons, h]
      unfold minStep
      split
      · exact List.mem_cons_of_mem _ (List.mem_cons_self _ _)
      · exact List.mem_cons_self _ _
    · exact List.mem_cons_of_mem _ (List.mem_cons_of_mem _ h)

theorem foldl_minStep_le {α : Type} (score : α → ℚ) (xs : List α) (acc : α) :
    score (xs.foldl (minStep score) acc) ≤ score acc ∧
      ∀ x ∈ xs, score (xs.foldl (minStep score) acc) ≤ score x := by
  induction xs generalizing acc with
  | nil => simp
  | cons y ys ih =>
    rw [List.foldl_cons]
    have h := ih (minStep score acc y)
    have hacc : score (minStep score acc y) ≤ score acc := by
      unfold minStep; split
      · exact le_of_lt (by assumption)
      · exact le_refl _
    have hy : score (minStep score acc y) ≤ score y := by
      unfold minStep; split
      · exact le_refl _
      · exact le_of_not_lt (by assumption)
    refine ⟨le_trans h.1 hacc, ?_⟩
    intro x hx
    rcases List.mem_cons.mp hx with hx | hx
    · subst hx
      exact le_trans h.1 hy
    · exact h.2 x hx

theorem foldl_minStep_keep {α : Type} (score : α → ℚ) (xs : List α) (acc : α)
    (h : ∀ x ∈ xs, score acc ≤ score x) : xs.foldl (minStep score) acc = acc := by
  induction xs with
  | nil => rfl
  | cons y ys ih =>
    have hy : minStep score acc y = acc := by
      unfold minStep
      rw [if_neg (not_lt_of_le (h y (List.mem_cons_self _ _)))]
    rw [List.foldl_cons, hy]
    exact ih (fun x hx => h x (List.mem_cons_of_mem _ hx))

theorem min_by_mem {α : Type} (score : α → ℚ) (l : List α) (m : α)
    (h : min_by score l = some m) : m ∈ l := by
  cases l with
  | nil => exact absurd h (by simp [min_by])
  | cons x xs =>
    have := foldl_minStep_mem score xs x
    rw [min_by, Option.some.injEq] at h
    exact h ▸ this

theorem min_by_le {α : Type} (score : α → ℚ) (l : List α) (m : α)
    (h : min_by score l = some m) : ∀ x ∈ l, score m ≤ score x := by
  cases l with
  | nil => exact absurd h (by simp [min_by])
  | cons x xs =>
    rw [min_by, Option.some.injEq] at h
    intro z hz
    rcases List.mem_cons.mp hz with hz | hz
    · exact hz ▸ h ▸ (foldl_minStep_le score xs x).1
    · exact h ▸ (foldl_minStep_le score xs x).2 z hz

theorem min_by_some {α : Type} (score : α → ℚ) (l : List α) (h : l ≠ []) :
    ∃ m, min_by score l = some m := by
  cases l with
  | nil => exact absurd rfl h
  | cons x xs => exact ⟨_, rfl⟩

theorem route_request_unfold (engine : RoutingEngine) (request : RoutingRequest)
    (resolver : GeoResolver) :
    engine.route_request request resolver =
      if (healthyOf engine).isEmpty then .error "No healthy replicas available"
      else
        match (if request.query_type = "write" then
            select_best_leader resolver (healthyOf engine) (resolver.resolve request.client_ip)
          else
            select_best_replica resolver (healthyOf engine)
              (resolver.resolve request.client_ip)) with
        | .ok selected =>
            .ok (mkRouteResponse resolver (resolver.resolve request.client_ip) selected)
        | .error e => .error e := by
  unfold RoutingEngine.route_request
  by_cases hE : (healthyOf engine).isEmpty
  · simp [hE]
  · by_cases hq : request.query_type = "write"
    · cases h : select_best_leader resolver (healthyOf engine)
          (resolver.resolve request.client_ip) with
      | ok v => simp [hE, hq, h, Bind.bind, Except.bind]
      | error e => simp [hE, hq, h, Bind.bind, Except.bind]
    · cases h : select_best_replica resolver (healthyOf engine)
          (resolver.resolve request.client_ip) with
      | ok v => simp [hE, hq, h, Bind.bind, Except.bind]
      | error e => simp [hE, hq, h, Bind.bind, Except.bind]

theorem min_by_first_min {α : Type} (score : α → ℚ) (l1 : List α) (r : α) (l2 : List α)
    (hbefore : ∀ s ∈ l1, score r < score s) (hafter : ∀ s ∈ l2, score r ≤ score s) :
    min_by score (l1 ++ r :: l2) = some r := by
  cases l1 with
  | nil =>
    rw [List.nil_append, min_by, foldl_minStep_keep score l2 r hafter]
  | cons a l1' =>
    rw [List.cons_append, min_by, List.foldl_append]
    have hmem := foldl_minStep_mem score l1' a
    have hlt : score r < score (l1'.foldl (minStep score) a) := by
      rcases List.mem_cons.mp hmem with h | h
      · rw [h]
        exact hbefore a (List.mem_cons_self _ _)
      · exact hbefore _ (List.mem_cons_of_mem _ h)
    rw [List.foldl_cons]
    have hstep : minStep score (l1'.foldl (minStep score) a) r = r := if_pos hlt
    rw [hstep, foldl_minStep_keep score l2 r hafter]

/-! ### Claims about route_request (C1, C2, C4) -/

/-- C1: for every routing table containing at least one healthy leader, a
write request succeeds, the selected replica is a healthy leader, and it
minimizes distance + load_score * 100 among the healthy leaders. -/
theorem route_write_selects_min_leader (engine : RoutingEngine) (request : RoutingRequest)
    (resolver : GeoResolver) (hq : request.query_type = "write")
    (hl : ∃ r ∈ healthyOf engine, r.is_leader = true) :
    ∃ r, r ∈ healthyOf engine ∧ r.is_leader = true ∧
      (∀ s ∈ healthyOf engine, s.is_leader = true →
        leaderScore resolver (resolver.resolve request.client_ip) r ≤
          leaderScore resolver (resolver.resolve request.client_ip) s) ∧
      engine.route_request request resolver =
        .ok (mkRouteResponse resolver (resolver.resolve request.client_ip) r) := by
  obtain ⟨r0, hr0mem, hr0lead⟩ := hl
  have hr0f : r0 ∈ (healthyOf engine).filter (fun r => r.is_leader) :=
    List.mem_filter.mpr ⟨hr0mem, hr0lead⟩
  have hlne : (healthyOf engine).filter (fun r => r.is_leader) ≠ [] :=
    List.ne_nil_of_mem hr0f
  obtain ⟨m, hm⟩ := min_by_some (leaderScore resolver (resolver.resolve request.client_ip)) _ hlne
  have hmf := List.mem_filter.mp (min_by_mem _ _ _ hm)
  have hsel : select_best_leader resolver (healthyOf engine)
      (resolver.resolve request.client_ip) = .ok m := by
    unfold select_best_leader
    rw [if_neg (by simpa [List.isEmpty_iff] using hlne), hm]
  refine ⟨m, hmf.1, hmf.2, ?_, ?_⟩
  · intro s hs hslead
    exact min_by_le _ _ _ hm s (List.mem_filter.mpr ⟨hs, hslead⟩)
  · rw [route_request_unfold,
      if_neg (by simpa [List.isEmpty_iff] using List.ne_nil_of_mem hr0mem), if_pos hq, hsel]

/-- C1 witness: concrete engine with a healthy leader. -/
theorem route_write_selects_min_leader_witness :
    writeReq.query_type = "write" ∧ (∃ r ∈ healthyOf leaderEngine, r.is_leader = true) ∧
    (∃ r, r ∈ healthyOf leaderEngine ∧ r.is_leader = true ∧
      (∀ s ∈ healthyOf leaderEngine, s.is_leader = true →
        leaderScore resolver0 (resolver0.resolve writeReq.client_ip) r ≤
          leaderScore resolver0 (resolver0.resolve writeReq.client_ip) s) ∧
      leaderEngine.route_request writeReq resolver0 =
        .ok (mkRouteResponse resolver0 (resolver0.resolve writeReq.client_ip) r)) :=
  ⟨rfl, by decide, route_write_selects_min_leader leaderEngine writeReq resolver0 rfl (by decide)⟩

/-- C2: a table with no healthy replica fails every request with the
no-healthy-replicas error; a table with healthy replicas but no healthy
leader fails writes with the no-healthy-leaders error while reads
succeed. -/
theorem route_request_failure_modes (engine : RoutingEngine) (request : RoutingRequest)
    (resolver : GeoResolver) :
    (healthyOf engine = [] →
      engine.route_request request resolver = .error "No healthy replicas available") ∧
    (healthyOf engine ≠ [] → (∀ r ∈ healthyOf engine, r.is_leader = false) →
      (request.query_type = "write" →
        engine.route_request request resolver = .error "No healthy leaders available") ∧
      (request.query_type = "read" →
        ∃ resp, engine.route_request request resolver = .ok resp)) := by
  constructor
  · intro h
    rw [route_request_unfold, if_pos (by simp [h])]
  · intro hne hnl
    constructor
    · intro hq
      have hleaders : (healthyOf engine).filter (fun r => r.is_leader) = [] := by
        rw [List.filter_eq_nil_iff]
        intro a ha
        simp [hnl a ha]
      rw [route_request_unfold, if_neg (by simpa [List.isEmpty_iff] using hne), if_pos hq]
      unfold select_best_leader
      rw [hleaders]
      rfl
    · intro hq
      have hq' : ¬ request.query_type = "write" := by
        rw [hq]; decide
      obtain ⟨m, hm⟩ :=
        min_by_some (replicaScore resolver (resolver.resolve request.client_ip)) _ hne
      rw [route_request_unfold, if_neg (by simpa [List.isEmpty_iff] using hne), if_neg hq']
      unfold select_best_replica
      rw [hm]
      exact ⟨_, rfl⟩

/-- C2 witness: the empty table, and a table with a single healthy
follower. -/
theorem route_request_failure_modes_witness :
    RoutingEngine.new.route_request readReq resolver0 = .error "No healthy replicas available" ∧
    followerEngine.route_request writeReq resolver0 = .error "No healthy leaders available" ∧
    (∃ resp, followerEngine.route_request readReq resolver0 = .ok resp) :=
  ⟨(route_request_failure_modes RoutingEngine.new readReq resolver0).1 (by decide),
    ((route_request_failure_modes followerEngine writeReq resolver0).2 (by decide)
      (by decide)).1 rfl,
    ((route_request_failure_modes followerEngine readReq resolver0).2 (by decide)
      (by decide)).2 rfl⟩

/-- C4 amended: for a fixed iteration order of the replica map the
selection is a pure function of table, client location and query type,
and among equal (or all larger) scores the candidate encountered first
in the iteration order is selected — among the healthy replicas on the
read path and among the healthy leaders on the write path; the order is
that of the concurrent map, not a sort by node_id. -/
theorem route_prefers_first_in_iteration_order (engine : RoutingEngine)
    (request : RoutingRequest) (resolver : GeoResolver) (l1 : List ReplicaInfo)
    (r : ReplicaInfo) (l2 : List ReplicaInfo) :
    (request.query_type ≠ "write" →
      healthyOf engine = l1 ++ r :: l2 →
      (∀ s ∈ l1, replicaScore resolver (resolver.resolve request.client_ip) r <
        replicaScore resolver (resolver.resolve request.client_ip) s) →
      (∀ s ∈ l2, replicaScore resolver (resolver.resolve request.client_ip) r ≤
        replicaScore resolver (resolver.resolve request.client_ip) s) →
      engine.route_request request resolver =
        .ok (mkRouteResponse resolver (resolver.resolve request.client_ip) r)) ∧
    (request.query_type = "write" →
      (healthyOf engine).filter (fun x => x.is_leader) = l1 ++ r :: l2 →
      (∀ s ∈ l1, leaderScore resolver (resolver.resolve request.client_ip) r <
        leaderScore resolver (resolver.resolve request.client_ip) s) →
      (∀ s ∈ l2, leaderScore resolver (resolver.resolve request.client_ip) r ≤
        leaderScore resolver (resolver.resolve request.client_ip) s) →
      engine.route_request request resolver =
        .ok (mkRouteResponse resolver (resolver.resolve request.client_ip) r)) := by
  constructor
  · intro hq hsplit hbefore hafter
    have hne : healthyOf engine ≠ [] := by
      rw [hsplit]
      simp
    rw [route_request_unfold, if_neg (by simpa [List.isEmpty_iff] using hne), if_neg hq]
    unfold select_best_replica
    rw [hsplit, min_by_first_min _ _ _ _ hbefore hafter]
  · intro hq hsplit hbefore hafter
    have hrmem : r ∈ (healthyOf engine).filter (fun x => x.is_leader) := by
      rw [hsplit]
      exact List.mem_append_right _ (List.mem_cons_self _ _)
    have hne : healthyOf engine ≠ [] :=
      List.ne_nil_of_mem (List.mem_filter.mp hrmem).1
    rw [route_request_unfold, if_neg (by simpa [List.isEmpty_iff] using hne), if_pos hq]
    unfold select_best_leader
    rw [hsplit]
    have hmin := min_by_first_min (leaderScore resolver (resolver.resolve request.client_ip))
      l1 r l2 hbefore hafter
    simp [hmin]

/-- C4 amended witness: on the read path a two-way tie resolved for the
head of the iteration order; on the write path the healthy-leader
selection at a concrete leader table. -/
theorem route_prefers_first_witness :
    (readReq.query_type ≠ "write" ∧ healthyOf engineAB = [] ++ nodeA :: [nodeB] ∧
      engineAB.route_request readReq resolver0 =
        .ok (mkRouteResponse resolver0 (resolver0.resolve readReq.client_ip) nodeA)) ∧
    (writeReq.query_type = "write" ∧
      (healthyOf leaderEngine).filter (fun x => x.is_leader) =
        [] ++ leaderReplica :: [] ∧
      leaderEngine.route_request writeReq resolver0 =
        .ok (mkRouteResponse resolver0 (resolver0.resolve writeReq.client_ip)
          leaderReplica)) :=
  ⟨⟨by decide, by decide,
    (route_prefers_first_in_iteration_order engineAB readReq resolver0 [] nodeA [nodeB]).1
      (by decide) (by decide)
      (by simp)
      (by intro s hs
          rw [List.mem_singleton] at hs
          subst hs
          norm_num [replicaScore, nodeA, nodeB, resolver0])⟩,
   ⟨rfl, by decide,
    (route_prefers_first_in_iteration_order leaderEngine writeReq resolver0 [] leaderReplica
        []).2
      rfl (by decide) (by simp) (by simp)⟩⟩

/-- C4 counterexample: two iteration orders of the same table (a
permutation of the same key-value pairs) select different node_ids under
equal scores, and the second selection is not the node_id-sorted first
candidate; so selection is not a function of the table alone and the
tie-break is not a stable sorted order. -/
theorem route_selection_depends_on_iteration_order :
    engineAB.replicas.Perm engineBA.replicas ∧
    replicaScore resolver0 (resolver0.resolve readReq.client_ip) nodeA =
      replicaScore resolver0 (resolver0.resolve readReq.client_ip) nodeB ∧
    engineAB.route_request readReq resolver0 =
      .ok (mkRouteResponse resolver0 GeoLocation.default nodeA) ∧
    engineBA.route_request readReq resolver0 =
      .ok (mkRouteResponse resolver0 GeoLocation.default nodeB) ∧
    nodeA.node_id ≠ nodeB.node_id ∧ nodeA.node_id < nodeB.node_id := by
  refine ⟨by decide, by norm_num [replicaScore, nodeA, nodeB, resolver0], ?_, ?_, by decide, ?_⟩
  · simp [RoutingEngine.route_request, healthyOf, select_best_replica, min_by, minStep,
      replicaScore, engineAB, nodeA, nodeB, resolver0, readReq, GeoLocation.default,
      Bind.bind, Except.bind]
  · simp [RoutingEngine.route_request, healthyOf, select_best_replica, min_by, minStep,
      replicaScore, engineBA, nodeA, nodeB, resolver0, readReq, GeoLocation.default,
      Bind.bind, Except.bind]
  · show nodeA.node_id < nodeB.node_id
    rw [String.lt_iff_toList_lt]
    decide

/-! ### Association-list map lemmas (C5, C6, C10) -/

theorem mapLookup_cons {α : Type} (k' : String) (v' : α) (rest : List (String × α))
    (n : String) :
    mapLookup ((k', v') :: rest) n = if k' = n then some v' else mapLookup rest n := by
  by_cases h : k' = n
  · rw [if_pos h]
    unfold mapLookup
    rw [List.find?_cons_of_pos _ (by simpa using h)]
    rfl
  · rw [if_neg h]
    unfold mapLookup
    rw [List.find?_cons_of_neg _ (by simpa using h)]

theorem mapLookup_mapInsert {α : Type} (k : String) (v : α) (m : List (String × α))
    (n : String) :
    mapLookup (mapInsert k v m) n = if k = n then some v else mapLookup m n := by
  induction m with
  | nil =>
    show mapLookup [(k, v)] n = _
    rw [mapLookup_cons]
  | cons p rest ih =>
    obtain ⟨k', v'⟩ := p
    simp only [mapInsert]
    by_cases hk : k' = k
    · rw [if_pos hk, mapLookup_cons, mapLookup_cons]
      by_cases h : k = n
      · rw [if_pos h, if_pos h]
      · rw [if_neg h, if_neg h, if_neg (by rw [hk]; exact h)]
    · rw [if_neg hk, mapLookup_cons, mapLookup_cons, ih]
      by_cases h : k' = n
      · rw [if_pos h, if_pos h, if_neg (fun hc => hk (h.trans hc.symm))]
      · rw [if_neg h, if_neg h]

theorem foldl_updateStep_fst (rs : List ReplicaInfo) (rm : List (String × ReplicaInfo))
    (zm : List (String × List String)) :
    (rs.foldl updateStep (rm, zm)).1 =
      rs.foldl (fun m r => mapInsert r.node_id r m) rm := by
  induction rs generalizing rm zm with
  | nil => rfl
  | cons r rest ih => exact ih _ _

theorem foldl_updateStep_snd (rs : List ReplicaInfo) (rm : List (String × ReplicaInfo))
    (zm : List (String × List String)) :
    (rs.foldl updateStep (rm, zm)).2 =
      rs.foldl (fun m r => zonePush r.zone r.node_id m) zm := by
  induction rs generalizing rm zm with
  | nil => rfl
  | cons r rest ih => exact ih _ _

theorem mapLookup_foldl_insert (rs : List ReplicaInfo) (m0 : List (String × ReplicaInfo))
    (n : String) :
    mapLookup (rs.foldl (fun m r => mapInsert r.node_id r m) m0) n =
      match rs.reverse.find? (fun r => r.node_id == n) with
      | some r => some r
      | none => mapLookup m0 n := by
  induction rs generalizing m0 with
  | nil => simp
  | cons r rest ih =>
    rw [List.foldl_cons, ih, List.reverse_cons, List.find?_append]
    cases h : rest.reverse.find? (fun r => r.node_id == n) with
    | some x => simp [h]
    | none =>
      simp only [h, Option.none_or]
      rw [mapLookup_mapInsert]
      by_cases hn : r.node_id = n
      · rw [if_pos hn, List.find?_cons_of_pos _ (by simpa using hn)]
      · rw [if_neg hn, List.find?_cons_of_neg _ (by simpa using hn), List.find?_nil]

theorem bucketOf_cons (z0 : String) (l : List String) (rest : List (String × List String))
    (z : String) :
    bucketOf ((z0, l) :: rest) z = if z0 = z then l else bucketOf rest z := by
  unfold bucketOf
  rw [mapLookup_cons]
  by_cases h : z0 = z
  · rw [if_pos h, if_pos h]
    rfl
  · rw [if_neg h, if_neg h]

theorem bucketOf_zonePush (zone node_id : String) (zm : List (String × List String))
    (z : String) :
    bucketOf (zonePush zone node_id zm) z =
      if zone = z then bucketOf zm z ++ [node_id] else bucketOf zm z := by
  induction zm with
  | nil =>
    show bucketOf [(zone, [node_id])] z = _
    rw [bucketOf_cons]
    by_cases h : zone = z
    · rw [if_pos h, if_pos h]
      rfl
    · rw [if_neg h, if_neg h]
  | cons p rest ih =>
    obtain ⟨z0, l⟩ := p
    simp only [zonePush]
    by_cases h0 : z0 = zone
    · rw [if_pos h0, bucketOf_cons, bucketOf_cons]
      by_cases hz : z0 = z
      · rw [if_pos hz, if_pos hz, if_pos (h0.symm.trans hz)]
      · rw [if_neg hz, if_neg hz, if_neg (fun hc => hz (h0.trans hc))]
    · rw [if_neg h0, bucketOf_cons, bucketOf_cons, ih]
      by_cases hz : z0 = z
      · rw [if_pos hz, if_pos hz, if_neg (fun hc => h0 (hz.trans hc.symm))]
      · rw [if_neg hz, if_neg hz]

theorem count_bucketOf_fold (rs : List ReplicaInfo) (zm0 : List (String × List String))
    (z node_id : String) :
    (bucketOf (rs.foldl (fun zm r => zonePush r.zone r.node_id zm) zm0) z).count node_id =
      (bucketOf zm0 z).count node_id +
        rs.countP (fun r => r.node_id == node_id && r.zone == z) := by
  induction rs generalizing zm0 with
  | nil => simp
  | cons r rest ih =>
    rw [List.foldl_cons, ih, List.countP_cons, bucketOf_zonePush]
    by_cases hz : r.zone = z
    · rw [if_pos hz, List.count_append]
      by_cases hn : r.node_id = node_id
      · simp [hn, hz]
        omega
      · simp [hn, List.count_singleton]
    · rw [if_neg hz]
      simp [hz]

theorem rebuild_lookup (rs : List ReplicaInfo) (n : String) :
    mapLookup ((rs.foldl updateStep ([], [])).1) n =
      rs.reverse.find? (fun r => r.node_id == n) := by
  rw [foldl_updateStep_fst, mapLookup_foldl_insert]
  cases h : rs.reverse.find? (fun r => r.node_id == n) <;> rfl

theorem rebuild_lookup_isSome (rs : List ReplicaInfo) (n : String) :
    (mapLookup ((rs.foldl updateStep ([], [])).1) n).isSome ↔ ∃ r ∈ rs, r.node_id = n := by
  rw [rebuild_lookup]
  simp [List.find?_isSome]

theorem rebuild_bucket_mem (rs : List ReplicaInfo) (z n : String) :
    n ∈ bucketOf ((rs.foldl updateStep ([], [])).2) z ↔
      ∃ r ∈ rs, r.node_id = n ∧ r.zone = z := by
  rw [← List.count_pos_iff, foldl_updateStep_snd, count_bucketOf_fold]
  have hzero : (bucketOf ([] : List (String × List String)) z).count n = 0 := rfl
  rw [hzero]
  simp [List.countP_pos_iff]

/-- C5: update_replicas succeeds on every input and fully replaces the
primary map: afterwards the entry under node_id n is exactly the last
occurrence of n in the input list (none when n does not occur), with no
dependence on the prior table. -/
theorem update_replicas_last_write_wins (engine : RoutingEngine) (rs : List ReplicaInfo)
    (n : String) :
    ∃ engine', engine.update_replicas rs = .ok engine' ∧
      mapLookup engine'.replicas n = rs.reverse.find? (fun r => r.node_id == n) ∧
      ((mapLookup engine'.replicas n).isSome ↔ ∃ r ∈ rs, r.node_id = n) := by
  exact ⟨_, rfl, rebuild_lookup rs n, rebuild_lookup_isSome rs n⟩

theorem zoneConsistent_update (engine : RoutingEngine) (rs : List ReplicaInfo)
    (engine' : RoutingEngine) (h : engine.update_replicas rs = .ok engine') :
    zoneConsistent engine' := by
  have he : engine' =
      { replicas := (rs.foldl updateStep ([], [])).1,
        zone_replicas := (rs.foldl updateStep ([], [])).2 } := by
    unfold RoutingEngine.update_replicas at h
    exact (Except.ok.inj h).symm
  subst he
  constructor
  · intro zone node_id hmem
    rw [zoneBucket] at hmem
    obtain ⟨r, hr, hid, _⟩ := (rebuild_bucket_mem rs zone node_id).mp hmem
    exact (rebuild_lookup_isSome rs node_id).mpr ⟨r, hr, hid⟩
  · intro node_id hsome
    obtain ⟨r, hr, hid⟩ := (rebuild_lookup_isSome rs node_id).mp hsome
    exact ⟨r.zone, (rebuild_bucket_mem rs r.zone node_id).mpr ⟨r, hr, hid, rfl⟩⟩

/-- C6: starting from a fresh engine, every sequence of update_replicas
and route_request operations leaves the zone index consistent with the
primary map: a node_id sits in some zone bucket exactly when it has an
entry in the primary map. -/
theorem engine_ops_zone_consistent (ops : List EngineOp) :
    zoneConsistent (ops.foldl applyOp RoutingEngine.new) := by
  have base : zoneConsistent RoutingEngine.new := by
    constructor
    · intro zone node_id hmem
      simp [zoneBucket, bucketOf, mapLookup, RoutingEngine.new] at hmem
    · intro node_id hsome
      simp [mapLookup, RoutingEngine.new] at hsome
  have step : ∀ (ops' : List EngineOp) (e : RoutingEngine),
      zoneConsistent e → zoneConsistent (ops'.foldl applyOp e) := by
    intro ops'
    induction ops' with
    | nil => intro e he; exact he
    | cons op rest ih =>
      intro e he
      rw [List.foldl_cons]
      apply ih
      cases op with
      | route req res => exact he
      | update rs => exact zoneConsistent_update e rs _ rfl
  exact step ops RoutingEngine.new base

/-- C10: when the input to update_replicas holds the same node_id under
two different zones, the rebuilt zone index lists that node_id in the
bucket of each such zone (once per occurrence sharing a zone), while the
primary map keeps only the last occurrence. -/
theorem update_replicas_duplicate_node_zones (engine : RoutingEngine)
    (l1 l2 l3 : List ReplicaInfo) (r1 r2 : ReplicaInfo)
    (hid : r1.node_id = r2.node_id) (hz : r1.zone ≠ r2.zone) :
    ∃ engine', engine.update_replicas (l1 ++ r1 :: l2 ++ r2 :: l3) = .ok engine' ∧
      r1.node_id ∈ zoneBucket engine' r1.zone ∧
      r1.node_id ∈ zoneBucket engine' r2.zone ∧
      (∀ z, (zoneBucket engine' z).count r1.node_id =
        (l1 ++ r1 :: l2 ++ r2 :: l3).countP
          (fun r => r.node_id == r1.node_id && r.zone == z)) ∧
      mapLookup engine'.replicas r1.node_id =
        (l1 ++ r1 :: l2 ++ r2 :: l3).reverse.find? (fun r => r.node_id == r1.node_id) := by
  refine ⟨_, rfl, ?_, ?_, ?_, ?_⟩
  · refine (rebuild_bucket_mem _ r1.zone r1.node_id).mpr ⟨r1, ?_, rfl, rfl⟩
    simp
  · refine (rebuild_bucket_mem _ r2.zone r1.node_id).mpr ⟨r2, ?_, hid.symm, rfl⟩
    simp
  · intro z
    show (bucketOf (((l1 ++ r1 :: l2 ++ r2 :: l3).foldl updateStep ([], [])).2) z).count
        r1.node_id = _
    rw [foldl_updateStep_snd, count_bucketOf_fold]
    have h0 : (bucketOf ([] : List (String × List String)) z).count r1.node_id = 0 := rfl
    rw [h0, Nat.zero_add]
  · exact rebuild_lookup _ r1.node_id

/-- C10 witness: the same node_id "A" under zones "z" and "z2". -/
theorem update_replicas_duplicate_node_zones_witness :
    nodeA.node_id = ({ nodeA with zone := "z2" } : ReplicaInfo).node_id ∧
    nodeA.zone ≠ ({ nodeA with zone := "z2" } : ReplicaInfo).zone ∧
    (∃ engine', RoutingEngine.new.update_replicas
        ([] ++ nodeA :: [] ++ ({ nodeA with zone := "z2" } : ReplicaInfo) :: []) =
          .ok engine' ∧
      nodeA.node_id ∈ zoneBucket engine' nodeA.zone ∧
      nodeA.node_id ∈ zoneBucket engine' ({ nodeA with zone := "z2" } : ReplicaInfo).zone ∧
      (∀ z, (zoneBucket engine' z).count nodeA.node_id =
        ([] ++ nodeA :: [] ++ ({ nodeA with zone := "z2" } : ReplicaInfo) :: []).countP
          (fun r : ReplicaInfo => r.node_id == nodeA.node_id && r.zone == z)) ∧
      mapLookup engine'.replicas nodeA.node_id =
        ([] ++ nodeA :: [] ++
            ({ nodeA with zone := "z2" } : ReplicaInfo) :: []).reverse.find?
          (fun r : ReplicaInfo => r.node_id == nodeA.node_id)) :=
  ⟨rfl, by decide,
    update_replicas_duplicate_node_zones RoutingEngine.new [] [] [] nodeA
      { nodeA with zone := "z2" } rfl (by decide)⟩

/-! ### Metrics collector lemmas (C8, C3) -/

theorem recordAll_nil (m : MetricsCollector) : recordAll m [] = m := rfl

theorem recordAll_cons (m : MetricsCollector) (c : Nat × Bool) (rest : List (Nat × Bool)) :
    recordAll m (c :: rest) = recordAll (m.record_request c.1 c.2) rest := rfl

theorem recordAll_total (calls : List (Nat × Bool)) :
    ∀ m : MetricsCollector, m.total_requests + calls.length < 2 ^ 64 →
      (recordAll m calls).total_requests = m.total_requests + calls.length := by
  induction calls with
  | nil =>
    intro m h
    simp [recordAll_nil]
  | cons c rest ih =>
    intro m h
    rw [recordAll_cons]
    simp only [List.length_cons] at h
    have h1 : (m.record_request c.1 c.2).total_requests = m.total_requests + 1 :=
      Nat.mod_eq_of_lt (by omega)
    rw [ih _ (by rw [h1]; omega), h1, List.length_cons]
    omega

theorem recordAll_successful (calls : List (Nat × Bool)) :
    ∀ m : MetricsCollector, m.successful_requests + calls.length < 2 ^ 64 →
      (recordAll m calls).successful_requests =
        m.successful_requests + successCount calls := by
  induction calls with
  | nil =>
    intro m h
    simp [recordAll_nil, successCount]
  | cons c rest ih =>
    intro m h
    rw [recordAll_cons]
    simp only [List.length_cons] at h
    by_cases hs : c.2 = true
    · have h1 : (m.record_request c.1 c.2).successful_requests =
          m.successful_requests + 1 := by
        show (if c.2 then (m.successful_requests + 1) % 2 ^ 64 else m.successful_requests) = _
        rw [if_pos hs]
        exact Nat.mod_eq_of_lt (by omega)
      rw [ih _ (by rw [h1]; omega), h1]
      simp [successCount, List.filter_cons, hs]
      omega
    · have h1 : (m.record_request c.1 c.2).successful_requests = m.successful_requests := by
        show (if c.2 then (m.successful_requests + 1) % 2 ^ 64 else m.successful_requests) = _
        rw [if_neg hs]
      rw [ih _ (by rw [h1]; omega), h1]
      simp [successCount, List.filter_cons, hs]

theorem recordAll_failed (calls : List (Nat × Bool)) :
    ∀ m : MetricsCollector, m.failed_requests + calls.length < 2 ^ 64 →
      (recordAll m calls).failed_requests = m.failed_requests + failureCount calls := by
  induction calls with
  | nil =>
    intro m h
    simp [recordAll_nil, failureCount]
  | cons c rest ih =>
    intro m h
    rw [recordAll_cons]
    simp only [List.length_cons] at h
    by_cases hs : c.2 = true
    · have h1 : (m.record_request c.1 c.2).failed_requests = m.failed_requests := by
        show (if c.2 then m.failed_requests else (m.failed_requests + 1) % 2 ^ 64) = _
        rw [if_pos hs]
      rw [ih _ (by rw [h1]; omega), h1]
      simp [failureCount, List.filter_cons, hs]
    · have h1 : (m.record_request c.1 c.2).failed_requests = m.failed_requests + 1 := by
        show (if c.2 then m.failed_requests else (m.failed_requests + 1) % 2 ^ 64) = _
        rw [if_neg hs]
        exact Nat.mod_eq_of_lt (by omega)
      rw [ih _ (by rw [h1]; omega), h1]
      simp [failureCount, List.filter_cons, hs]
      omega

theorem recordAll_latency_sum (calls : List (Nat × Bool)) :
    ∀ m : MetricsCollector, m.total_latency_micros + latencySum calls < 2 ^ 64 →
      (recordAll m calls).total_latency_micros =
        m.total_latency_micros + latencySum calls := by
  induction calls with
  | nil =>
    intro m h
    simp [recordAll_nil, latencySum, latencies]
  | cons c rest ih =>
    intro m h
    rw [recordAll_cons]
    have hsum : latencySum (c :: rest) = c.1 + latencySum rest := by
      simp [latencySum, latencies]
    rw [hsum] at h
    have h1 : (m.record_request c.1 c.2).total_latency_micros =
        m.total_latency_micros + c.1 :=
      Nat.mod_eq_of_lt (by omega)
    rw [ih _ (by rw [h1]; omega), h1, hsum]
    omega

theorem recordAll_min (calls : List (Nat × Bool)) :
    ∀ m : MetricsCollector, (recordAll m calls).min_latency_micros =
      (latencies calls).foldl Nat.min m.min_latency_micros := by
  induction calls with
  | nil =>
    intro m
    rfl
  | cons c rest ih =>
    intro m
    rw [recordAll_cons, ih]
    have hl : latencies (c :: rest) = c.1 :: latencies rest := rfl
    rw [hl, List.foldl_cons]
    have h1 : (m.record_request c.1 c.2).min_latency_micros =
        Nat.min m.min_latency_micros c.1 := by
      show (if c.1 < m.min_latency_micros then c.1 else m.min_latency_micros) =
        if m.min_latency_micros ≤ c.1 then m.min_latency_micros else c.1
      split <;> split <;> omega
    rw [h1]

theorem recordAll_max (calls : List (Nat × Bool)) :
    ∀ m : MetricsCollector, (recordAll m calls).max_latency_micros =
      (latencies calls).foldl Nat.max m.max_latency_micros := by
  induction calls with
  | nil =>
    intro m
    rfl
  | cons c rest ih =>
    intro m
    rw [recordAll_cons, ih]
    have hl : latencies (c :: rest) = c.1 :: latencies rest := rfl
    rw [hl, List.foldl_cons]
    have h1 : (m.record_request c.1 c.2).max_latency_micros =
        Nat.max m.max_latency_micros c.1 := by
      show (if c.1 > m.max_latency_micros then c.1 else m.max_latency_micros) =
        if m.max_latency_micros ≤ c.1 then c.1 else m.max_latency_micros
      split <;> split <;> omega
    rw [h1]

theorem foldl_nat_min_le_init (xs : List Nat) : ∀ a : Nat, xs.foldl Nat.min a ≤ a := by
  induction xs with
  | nil => intro a; exact le_refl a
  | cons x rest ih =>
    intro a
    rw [List.foldl_cons]
    exact le_trans (ih _) (Nat.min_le_left _ _)

theorem successCount_add_failureCount (calls : List (Nat × Bool)) :
    successCount calls + failureCount calls = calls.length := by
  induction calls with
  | nil => rfl
  | cons c rest ih =>
    by_cases h : c.2 = true <;>
      simp [successCount, failureCount, List.filter_cons, h] at ih ⊢ <;> omega

theorem record_request_comm (m : MetricsCollector) (a b : Nat × Bool) :
    (m.record_request a.1 a.2).record_request b.1 b.2 =
      (m.record_request b.1 b.2).record_request a.1 a.2 := by
  simp only [MetricsCollector.record_request, MetricsCollector.mk.injEq]
  refine ⟨trivial, ?_, ?_, ?_, ?_, ?_⟩
  · cases ha : a.2 <;> cases hb : b.2 <;> simp
  · cases ha : a.2 <;> cases hb : b.2 <;> simp
  · simp only [Nat.mod_add_mod]
    omega
  · split_ifs <;> omega
  · split_ifs <;> omega

theorem recordAll_perm (l1 l2 : List (Nat × Bool)) (h : l1.Perm l2) :
    ∀ m : MetricsCollector, recordAll m l1 = recordAll m l2 := by
  induction h with
  | nil => intro m; rfl
  | cons x _ ih =>
    intro m
    rw [recordAll_cons, recordAll_cons, ih]
  | swap x y l =>
    intro m
    rw [recordAll_cons, recordAll_cons, recordAll_cons, recordAll_cons, record_request_comm]
  | trans _ _ ih1 ih2 =>
    intro m
    rw [ih1, ih2]

/-- C8 amended: after any sequence of record calls in which every
latency is strictly below the u64::MAX sentinel and the counters and the
latency sum stay below 2^64, the snapshot reports total = N,
successful + failed = N with successful counting the success = true
calls, min and max equal to the smallest and largest recorded latency
(0 for min when N = 0), and avg equal to the latency sum divided by N
(0 when N = 0), independently of the order of the calls. -/
theorem metrics_record_snapshot_characterization (calls : List (Nat × Bool))
    (hlen : calls.length < 2 ^ 64) (hsum : latencySum calls < 2 ^ 64)
    (hlat : ∀ c ∈ calls, c.1 < U64_MAX) :
    (recordAll MetricsCollector.new calls).get_snapshot.total_requests = calls.length ∧
    (recordAll MetricsCollector.new calls).get_snapshot.successful_requests =
      successCount calls ∧
    (recordAll MetricsCollector.new calls).get_snapshot.failed_requests =
      failureCount calls ∧
    successCount calls + failureCount calls = calls.length ∧
    (recordAll MetricsCollector.new calls).get_snapshot.min_latency_micros =
      smallestLatency calls ∧
    (recordAll MetricsCollector.new calls).get_snapshot.max_latency_micros =
      largestLatency calls ∧
    (recordAll MetricsCollector.new calls).get_snapshot.avg_latency_micros =
      (if calls.length = 0 then 0 else (latencySum calls : ℚ) / (calls.length : ℚ)) ∧
    (∀ calls2 : List (Nat × Bool), calls.Perm calls2 →
      (recordAll MetricsCollector.new calls2).get_snapshot =
        (recordAll MetricsCollector.new calls).get_snapshot) := by
  have htot : (recordAll MetricsCollector.new calls).total_requests = calls.length := by
    have h := recordAll_total calls MetricsCollector.new
      (show (0 : Nat) + calls.length < 2 ^ 64 by omega)
    simpa [MetricsCollector.new] using h
  have hsucc : (recordAll MetricsCollector.new calls).successful_requests =
      successCount calls := by
    have h := recordAll_successful calls MetricsCollector.new
      (show (0 : Nat) + calls.length < 2 ^ 64 by omega)
    simpa [MetricsCollector.new] using h
  have hfail : (recordAll MetricsCollector.new calls).failed_requests =
      failureCount calls := by
    have h := recordAll_failed calls MetricsCollector.new
      (show (0 : Nat) + calls.length < 2 ^ 64 by omega)
    simpa [MetricsCollector.new] using h
  have hsumf : (recordAll MetricsCollector.new calls).total_latency_micros =
      latencySum calls := by
    have h := recordAll_latency_sum calls MetricsCollector.new
      (show (0 : Nat) + latencySum calls < 2 ^ 64 by omega)
    simpa [MetricsCollector.new] using h
  have hminf : (recordAll MetricsCollector.new calls).min_latency_micros =
      (latencies calls).foldl Nat.min U64_MAX := recordAll_min calls MetricsCollector.new
  have hmaxf : (recordAll MetricsCollector.new calls).max_latency_micros =
      (latencies calls).foldl Nat.max 0 := recordAll_max calls MetricsCollector.new
  refine ⟨htot, hsucc, hfail, successCount_add_failureCount calls, ?_, hmaxf, ?_, ?_⟩
  · show (if (recordAll MetricsCollector.new calls).min_latency_micros = U64_MAX then 0
      else (recordAll MetricsCollector.new calls).min_latency_micros) = smallestLatency calls
    rw [hminf]
    cases hc : calls with
    | nil => simp [smallestLatency, latencies]
    | cons c rest =>
      have hclt : c.1 < U64_MAX := hlat c (by rw [hc]; exact List.mem_cons_self _ _)
      have hlats : latencies (c :: rest) = c.1 :: latencies rest := rfl
      rw [hlats, List.foldl_cons]
      have hmin1 : Nat.min U64_MAX c.1 = c.1 := by
        show (if U64_MAX ≤ c.1 then U64_MAX else c.1) = c.1
        rw [if_neg (by omega)]
      rw [hmin1]
      have hle := foldl_nat_min_le_init (latencies rest) c.1
      rw [if_neg (by omega)]
      rfl
  · show (if (recordAll MetricsCollector.new calls).total_requests > 0 then
        ((recordAll MetricsCollector.new calls).total_latency_micros : ℚ) /
          ((recordAll MetricsCollector.new calls).total_requests : ℚ)
      else 0) = _
    rw [htot, hsumf]
    by_cases h0 : calls.length = 0
    · rw [if_neg (by omega), if_pos h0]
    · rw [if_pos (by omega), if_neg h0]
  · intro calls2 hperm
    rw [recordAll_perm calls2 calls hperm.symm]

/-- C8 counterexample: recording the single latency u64::MAX collides
with the min sentinel, so the snapshot reports 0 as minimum although the
smallest (and only) recorded latency is u64::MAX. -/
theorem metrics_min_sentinel_collision :
    (recordAll MetricsCollector.new [(U64_MAX, true)]).get_snapshot.min_latency_micros = 0 ∧
    smallestLatency [(U64_MAX, true)] = U64_MAX ∧ U64_MAX ≠ 0 := by
  refine ⟨?_, rfl, by decide⟩
  show (if (recordAll MetricsCollector.new [(U64_MAX, true)]).min_latency_micros = U64_MAX
      then 0 else (recordAll MetricsCollector.new [(U64_MAX, true)]).min_latency_micros) = 0
  have h : (recordAll MetricsCollector.new [(U64_MAX, true)]).min_latency_micros = U64_MAX := by
    show (if U64_MAX < U64_MAX then U64_MAX else U64_MAX) = U64_MAX
    rw [if_neg (by omega)]
  rw [h, if_pos rfl]

/-- C8 witness: two concrete calls. -/
theorem metrics_record_snapshot_characterization_witness :
    ([(5, true), (3, false)] : List (Nat × Bool)).length < 2 ^ 64 ∧
    latencySum [(5, true), (3, false)] < 2 ^ 64 ∧
    (∀ c ∈ ([(5, true), (3, false)] : List (Nat × Bool)), c.1 < U64_MAX) ∧
    ((recordAll MetricsCollector.new [(5, true), (3, false)]).get_snapshot.total_requests =
        ([(5, true), (3, false)] : List (Nat × Bool)).length ∧
      (recordAll MetricsCollector.new
          [(5, true), (3, false)]).get_snapshot.successful_requests =
        successCount [(5, true), (3, false)] ∧
      (recordAll MetricsCollector.new [(5, true), (3, false)]).get_snapshot.failed_requests =
        failureCount [(5, true), (3, false)] ∧
      successCount [(5, true), (3, false)] + failureCount [(5, true), (3, false)] =
        ([(5, true), (3, false)] : List (Nat × Bool)).length ∧
      (recordAll MetricsCollector.new
          [(5, true), (3, false)]).get_snapshot.min_latency_micros =
        smallestLatency [(5, true), (3, false)] ∧
      (recordAll MetricsCollector.new
          [(5, true), (3, false)]).get_snapshot.max_latency_micros =
        largestLatency [(5, true), (3, false)] ∧
      (recordAll MetricsCollector.new
          [(5, true), (3, false)]).get_snapshot.avg_latency_micros =
        (if ([(5, true), (3, false)] : List (Nat × Bool)).length = 0 then 0
          else (latencySum [(5, true), (3, false)] : ℚ) /
            (([(5, true), (3, false)] : List (Nat × Bool)).length : ℚ)) ∧
      (∀ calls2 : List (Nat × Bool), ([(5, true), (3, false)] : List (Nat × Bool)).Perm calls2 →
        (recordAll MetricsCollector.new calls2).get_snapshot =
          (recordAll MetricsCollector.new [(5, true), (3, false)]).get_snapshot)) :=
  ⟨by decide, by decide, by decide,
    metrics_record_snapshot_characterization [(5, true), (3, false)] (by decide) (by decide)
      (by decide)⟩

/-- C3 is false of the code: a metrics request returns the constant stub
object {"metrics": "todo"} for every collector state, and that stub is
never the snapshot encoding the spec requires. -/
theorem metrics_request_returns_todo_stub (engine : RoutingEngine) (resolver : GeoResolver)
    (ts now : Nat) (collector : MetricsCollector) :
    (process_request { inner := .GetMetrics, timestamp := ts } resolver engine now).1 =
      SidecarResponse.mkSuccess (.obj [("metrics", .str "todo")]) now ∧
    Json.obj [("metrics", .str "todo")] ≠ encodeSnapshot collector.get_snapshot := by
  refine ⟨rfl, ?_⟩
  intro h
  unfold encodeSnapshot at h
  injection h with hf
  injection hf with h1 _
  injection h1 with h2 _
  exact absurd h2 (by decide)

/-- C7: a declared frame length above 1,048,576 bytes makes the
connection loop fail without reading the body (the outcome is the same
whatever the rest of the stream holds), while a declared length of at
most 1,048,576 with enough body bytes reads exactly the declared body
for processing. -/
theorem frame_size_limit (b0 b1 b2 b3 : Nat) (rest rest2 : List Nat) :
    (u32_from_be_bytes b0 b1 b2 b3 > MAX_REQUEST_SIZE →
      read_frame (b0 :: b1 :: b2 :: b3 :: rest) =
        .fail ("Request too large: " ++ toString (u32_from_be_bytes b0 b1 b2 b3) ++
          " bytes") ∧
      read_frame (b0 :: b1 :: b2 :: b3 :: rest) =
        read_frame (b0 :: b1 :: b2 :: b3 :: rest2)) ∧
    (u32_from_be_bytes b0 b1 b2 b3 ≤ MAX_REQUEST_SIZE →
      u32_from_be_bytes b0 b1 b2 b3 ≤ rest.length →
      read_frame (b0 :: b1 :: b2 :: b3 :: rest) =
        .frame (rest.take (u32_from_be_bytes b0 b1 b2 b3))
          (rest.drop (u32_from_be_bytes b0 b1 b2 b3))) := by
  constructor
  · intro h
    constructor
    · simp only [read_frame]
      rw [if_pos h]
    · simp only [read_frame]
      rw [if_pos h, if_pos h]
  · intro h1 h2
    simp only [read_frame]
    rw [if_neg (not_lt_of_le h1), if_neg (not_lt_of_le h2)]

/-- C7 witness: a declared length of 1,048,577 aborts independently of
the stream tail; a declared length of 2 reads the 2-byte body. -/
theorem frame_size_limit_witness :
    u32_from_be_bytes 0 16 0 1 > MAX_REQUEST_SIZE ∧
    (read_frame (0 :: 16 :: 0 :: 1 :: [7, 8, 9]) =
        .fail ("Request too large: " ++ toString (u32_from_be_bytes 0 16 0 1) ++ " bytes") ∧
      read_frame (0 :: 16 :: 0 :: 1 :: [7, 8, 9]) = read_frame (0 :: 16 :: 0 :: 1 :: [])) ∧
    u32_from_be_bytes 0 0 0 2 ≤ MAX_REQUEST_SIZE ∧
    u32_from_be_bytes 0 0 0 2 ≤ ([65, 66, 67] : List Nat).length ∧
    read_frame (0 :: 0 :: 0 :: 2 :: [65, 66, 67]) =
      .frame (([65, 66, 67] : List Nat).take (u32_from_be_bytes 0 0 0 2))
        (([65, 66, 67] : List Nat).drop (u32_from_be_bytes 0 0 0 2)) :=
  ⟨by decide,
    (frame_size_limit 0 16 0 1 [7, 8, 9] []).1 (by decide),
    by decide, by decide,
    (frame_size_limit 0 0 0 2 [65, 66, 67] []).2 (by decide) (by decide)⟩

theorem haversine_symm (lat1 lon1 lat2 lon2 : ℝ) :
    haversine_distance lat1 lon1 lat2 lon2 = haversine_distance lat2 lon2 lat1 lon1 := by
  simp only [haversine_distance, to_radians]
  have h1 : (lat1 - lat2) * Real.pi / 180 / 2 = -((lat2 - lat1) * Real.pi / 180 / 2) := by
    ring
  have h2 : (lon1 - lon2) * Real.pi / 180 / 2 = -((lon2 - lon1) * Real.pi / 180 / 2) := by
    ring
  rw [h1, h2, Real.sin_neg, Real.sin_neg]
  ring_nf

/-- C9: the great-circle distance of geo.rs is symmetric in its two
locations, exactly, over real coordinates. -/
theorem calculate_distance_symm (a b : GeoLocationR) :
    calculate_distance a b = calculate_distance b a :=
  haversine_symm a.latitude a.longitude b.latitude b.longitude
